import Mathlib

/-!
Shallow embedding of `src/main.py` (playlist_downloader_backend), a FastAPI
façade over the external `yt-dlp` tool.

The subprocess world is modelled by data: each line the external tool writes
to standard output is abstracted to its JSON-relevant content
(`LineContent`), and a subprocess run is a record of its exit code, captured
streams and timeout behaviour.  The streaming generator
`stream_playlist_download`, the enumeration helper `get_total_videos`, the
URL validator `validate_youtube_url`, and the HTTP endpoints
`download_endpoint` / `cancel_download` are translated from the Python
source into pure functions; the global dict `download_sessions` becomes an
explicit association list threaded through them.
-/

namespace PlaylistBackend

/-- One line of a subprocess's standard output, abstracted to what the
Python code inspects: `blank` is a line whose `strip()` is empty;
`malformed` is a non-blank line on which `json.loads` raises
`JSONDecodeError`; `json hasId hasTitle title` is a line that decodes to a
JSON object, recording whether it contains an `id` key, whether it contains
a `title` key, and the title string (meaningful only when `hasTitle`). -/
inductive LineContent where
  | blank
  | malformed
  | json (hasId : Bool) (hasTitle : Bool) (title : String)
  deriving DecidableEq, Repr

/-- Outcome of the `subprocess.run` call inside `get_total_videos`
(`yt-dlp --flat-playlist --print-json <url>`, `timeout=30`). -/
structure EnumRun where
  timedOut : Bool
  returncode : Int
  stdoutLines : List LineContent
  stderr : String
  deriving DecidableEq, Repr

/-- Outcome of the download `subprocess.Popen` (`yt-dlp --yes-playlist ...`):
the lines read from its stdout until EOF, the exit code observed by
`process.wait()`, and the captured stderr text. -/
structure DownloadRun where
  stdoutLines : List LineContent
  returncode : Int
  stderr : String
  deriving DecidableEq, Repr

/-- A `subprocess.Popen` handle as the cancel endpoint sees it:
`exitAfterTerminate` is the number of time units the process needs to exit
after `terminate()` is delivered (`none` if it ignores the signal). -/
structure Proc where
  exitAfterTerminate : Option Nat
  deriving DecidableEq, Repr

/-- `process.wait(timeout=5)` in `cancel_download`: grace period constant. -/
def GRACE_PERIOD : Nat := 5

/-- `subprocess.run(..., timeout=30)` in `get_total_videos`. -/
def ENUM_TIMEOUT : Nat := 30

/-- Whether `process.wait(timeout=GRACE_PERIOD)` raises `TimeoutExpired`
after `terminate()`: true iff the process does not exit within the grace
period. -/
def waitTimesOut (p : Proc) : Bool :=
  match p.exitAfterTerminate with
  | some t => decide (GRACE_PERIOD < t)
  | none => true

/-- The global `download_sessions : Dict[str, subprocess.Popen]`,
as an association list from session ids to process handles. -/
abbrev Registry : Type := List (String × Proc)

/-- `session_id in download_sessions`. -/
def regMem (sid : String) (reg : Registry) : Bool :=
  reg.any (fun e => e.1 == sid)

/-- `download_sessions[session_id]` (lookup). -/
def regGet (sid : String) (reg : Registry) : Option Proc :=
  (reg.find? (fun e => e.1 == sid)).map (fun e => e.2)

/-- `del download_sessions[session_id]` / removal of a key (dict keys are
unique, so removing every pair with the key is the same operation). -/
def regErase (sid : String) (reg : Registry) : Registry :=
  reg.filter (fun e => e.1 != sid)

/-- `download_sessions[session_id] = process`: dict assignment overwrites
any existing binding for the key. -/
def regInsert (sid : String) (p : Proc) (reg : Registry) : Registry :=
  (sid, p) :: regErase sid reg

/-! ## validate_youtube_url

`YOUTUBE_REGEX = r'(https?://)?(www\.)?(youtube|youtu)\.(com|be)/.*'` and
`re.match(YOUTUBE_REGEX, url) is not None`.  `re.match` anchors at the
start only; the trailing `.*` matches any string (including the empty
one), so the regex accepts exactly the strings having a prefix of the form
optional scheme, optional `www.`, `youtube.` or `youtu.`, `com/` or `be/`.
Each optional group and each alternation is expanded into an explicit
disjunction, which is exactly the set of paths a backtracking engine
explores. -/

/-- Literal prefix test on character lists (first argument is the
pattern). -/
def charsStartWith : List Char → List Char → Bool
  | [], _ => true
  | _ :: _, [] => false
  | p :: ps, c :: cs => p == c && charsStartWith ps cs

/-- `(com|be)/` part of the pattern (the trailing `.*` of the regex
matches anything, the empty remainder included, so it imposes nothing). -/
def tldSlash (s : List Char) : Bool :=
  charsStartWith "com/".data s || charsStartWith "be/".data s

/-- `(youtube|youtu)\.(com|be)/` part of the pattern. -/
def hostPart (s : List Char) : Bool :=
  (charsStartWith "youtube.".data s && tldSlash (s.drop 8)) ||
  (charsStartWith "youtu.".data s && tldSlash (s.drop 6))

/-- `(www\.)?(youtube|youtu)\.(com|be)/` part of the pattern. -/
def afterScheme (s : List Char) : Bool :=
  (charsStartWith "www.".data s && hostPart (s.drop 4)) || hostPart s

/-- `re.match(YOUTUBE_REGEX, url) is not None`. -/
def validate_youtube_url (url : String) : Bool :=
  (charsStartWith "https://".data url.data && afterScheme (url.data.drop 8)) ||
  (charsStartWith "http://".data url.data && afterScheme (url.data.drop 7)) ||
  afterScheme url.data

/-! ## get_total_videos -/

/-- Stand-in for the text of Python's `json.JSONDecodeError` raised by
`json.loads` on a malformed line (its exact wording is produced by the
Python runtime, not by this code). -/
def jsonDecodeErrMsg : String := "JSONDecodeError"

/-- Stand-in for the text of `subprocess.TimeoutExpired` raised when the
enumeration run exceeds its 30-unit timeout. -/
def timeoutErrMsg : String := "TimeoutExpired"

/-- `sum(1 for line in result.stdout.splitlines() if line.strip() and
'id' in json.loads(line))`: blank lines are skipped by the short-circuit,
a malformed line makes `json.loads` raise (aborting the whole sum), and a
decoded object counts iff it has an `id` key. -/
def countIdLines : List LineContent → Except String Nat
  | [] => .ok 0
  | .blank :: rest => countIdLines rest
  | .malformed :: _ => .error jsonDecodeErrMsg
  | .json hasId _ _ :: rest =>
      match countIdLines rest with
      | .error e => .error e
      | .ok n => .ok (if hasId then n + 1 else n)

/-- `get_total_videos`: runs `yt-dlp --flat-playlist --print-json` with a
30-unit timeout; a timeout or a non-zero exit raises (re-raised by the
`except` block after printing), otherwise the `id`-bearing JSON lines are
counted.  `Except.error m` models the function raising an exception whose
`str` is `m`. -/
def get_total_videos (r : EnumRun) : Except String Nat :=
  if r.timedOut then .error timeoutErrMsg
  else if r.returncode != 0 then .error ("yt-dlp error: " ++ r.stderr)
  else countIdLines r.stdoutLines

/-! ## stream_playlist_download -/

/-- A server-sent event produced by the generator: `event: <kind>` plus its
`data:` payload.  `progress` carries the decoded `title`, the running
`completed` count and the enumeration `total` (the three fields of the
JSON payload built by `json.dumps`). -/
inductive Event where
  | total (n : Nat)
  | complete
  | progress (video : String) (completed : Nat) (total : Nat)
  | error (msg : String)
  deriving DecidableEq, Repr

/-- Is an event a `progress` event? -/
def isProgress : Event → Bool
  | .progress _ _ _ => true
  | _ => false

/-- The `for line in process.stdout:` loop of `stream_playlist_download`,
started with running count `completed`: blank lines fail `line.strip()`,
malformed lines hit `except json.JSONDecodeError: continue`, decoded
objects without a `title` key yield nothing, and each decoded object with
a `title` increments the count and yields one `progress` event.  Returns
the yielded events and the final `completed_videos` value. -/
def processLines (lines : List LineContent) (completed : Nat) (total : Nat) :
    List Event × Nat :=
  match lines with
  | [] => ([], completed)
  | .blank :: rest => processLines rest completed total
  | .malformed :: rest => processLines rest completed total
  | .json _ hasTitle title :: rest =>
      if hasTitle then
        let r := processLines rest (completed + 1) total
        (.progress title (completed + 1) total :: r.1, r.2)
      else processLines rest completed total

/-- The environment one call of the generator runs in: whether
`os.makedirs` raises (and with what message), the outcome of the
enumeration subprocess, the download subprocess handle and its observed
run. -/
structure Env where
  makedirsError : Option String
  enumRun : EnumRun
  handle : Proc
  downloadRun : DownloadRun
  deriving DecidableEq, Repr

/-- What one complete run of the generator produced: the event sequence in
order, the registry after the `finally` block, whether the download
subprocess was started (`subprocess.Popen` reached), and how many times the
`finally` cleanup (remove-if-present of the session id) executed. -/
structure StreamResult where
  events : List Event
  reg : Registry
  startedDownload : Bool
  removals : Nat

/-- The `try` body of `stream_playlist_download` (everything before
`finally`): URL validation, `os.makedirs`, enumeration, then the download
process, its line loop, `process.wait()` and the terminal event.  Returns
the events yielded, the registry as the body left it, and whether the
download process was started. -/
def streamBody (playlist_url : String) (sid : String) (env : Env)
    (reg : Registry) : List Event × Registry × Bool :=
  if !validate_youtube_url playlist_url then
    ([.error "Invalid YouTube URL"], reg, false)
  else
    match env.makedirsError with
    | some msg => ([.error msg], reg, false)
    | none =>
      match get_total_videos env.enumRun with
      | .error e =>
          ([.error ("Failed to get playlist info: " ++ e)], reg, false)
      | .ok total_videos =>
          let reg1 := regInsert sid env.handle reg
          let progEvs := (processLines env.downloadRun.stdoutLines 0 total_videos).1
          let finalEv :=
            if env.downloadRun.returncode == 0 then Event.complete
            else Event.error ("Download failed: " ++ env.downloadRun.stderr)
          (Event.total total_videos :: progEvs ++ [finalEv], reg1, true)

/-- `stream_playlist_download(playlist_url, format, session_id)` run to
completion against environment `env` and initial registry `reg`: the `try`
body followed by the `finally` block, which performs the remove-if-present
of `session_id` exactly once (`if session_id in download_sessions: del
download_sessions[session_id]`).  The `format` argument only affects the
command line handed to the external tool, which is outside the model. -/
def stream_playlist_download (playlist_url : String) (format : String)
    (sid : String) (env : Env) (reg : Registry) : StreamResult :=
  match streamBody playlist_url sid env reg with
  | (evs, reg1, started) =>
      { events := evs
        reg := regErase sid reg1
        startedDownload := started
        removals := 1 }

/-! ## download_endpoint -/

/-- The query-parameter pattern `regex="^(mp4|mp3)$"` under Python `re`
semantics: `^` anchors at the start and `$` matches at the end of the
string or just before a single newline at the end of the string, so the
pattern accepts exactly `mp4`, `mp3`, and those two followed by one
trailing newline. -/
def formatPattern (s : String) : Bool :=
  s == "mp4" || s == "mp3" || s == "mp4\n" || s == "mp3\n"

/-- Result of a request to `GET /download`: either FastAPI rejects the
query parameters (422 validation error — the generator is never created,
no event of any kind is produced), or it answers 200 with a
`StreamingResponse` that will drive `stream_playlist_download` with a
fresh UUID session id. -/
inductive EndpointResult where
  | validationError
  | streaming (sid : String)
  deriving DecidableEq, Repr

/-- `download_endpoint`: `playlist_url = Query(..., min_length=10)` and
`format = Query("mp4", regex="^(mp4|mp3)$")`.  The fresh
`str(uuid.uuid4())` is passed in as `sid`. -/
def download_endpoint (playlist_url : String) (format : String)
    (sid : String) : EndpointResult :=
  if playlist_url.length < 10 then .validationError
  else if !formatPattern format then .validationError
  else .streaming sid

/-! ## cancel_download -/

/-- Result of `POST /cancel/{session_id}`: the 404 `HTTPException` with its
detail text, or the 200 confirmation message. -/
inductive CancelOutcome where
  | notFound (statusCode : Nat) (detail : String)
  | cancelled (message : String)
  deriving DecidableEq, Repr

/-- What one call of `cancel_download` did: its HTTP outcome, the registry
it left behind, whether `process.terminate()` was called, and whether the
call escalated to `process.kill()` after `wait(timeout=5)` expired. -/
structure CancelResult where
  outcome : CancelOutcome
  reg : Registry
  terminated : Bool
  killed : Bool
  deriving DecidableEq, Repr

/-- `cancel_download(session_id)`: 404 if the id is not in
`download_sessions`; otherwise the handle (a `Popen` object, always
truthy, so the `if process:` guard is taken) gets `terminate()`, then
`wait(timeout=5)`, escalating to `kill()` on `TimeoutExpired`, the entry
is deleted, and a confirmation message is returned. -/
def cancel_download (sid : String) (reg : Registry) : CancelResult :=
  match regGet sid reg with
  | none =>
      { outcome := .notFound 404 "Session not found"
        reg := reg
        terminated := false
        killed := false }
  | some p =>
      { outcome := .cancelled ("Download session " ++ sid ++ " cancelled")
        reg := regErase sid reg
        terminated := true
        killed := waitTimesOut p }

/-! ## Derived notions used to state the claims -/

/-- The titles of the decodable records carrying a `title` field, in
output order: exactly the lines the progress loop turns into events. -/
def titles (lines : List LineContent) : List String :=
  lines.filterMap (fun l =>
    match l with
    | .json _ true t => some t
    | _ => none)

/-- A line that decodes to a JSON object containing an `id` key (the
lines `get_total_videos` counts). -/
def hasIdLine : LineContent → Bool
  | .json hasId _ _ => hasId
  | _ => false

/-! ## Helper lemmas -/

theorem titles_cons_blank (rest : List LineContent) :
    titles (.blank :: rest) = titles rest := rfl

theorem titles_cons_malformed (rest : List LineContent) :
    titles (.malformed :: rest) = titles rest := rfl

theorem titles_cons_json (hasId hasTitle : Bool) (t : String)
    (rest : List LineContent) :
    titles (.json hasId hasTitle t :: rest) =
      if hasTitle then t :: titles rest else titles rest := by
  cases hasTitle <;> rfl

/-- The line loop, fully characterised: starting from running count `c`,
it emits one `progress` event per titled record, with `completed` taking
the consecutive values `c+1, c+2, ...`, every event carrying `total = N`,
and it finishes with the count advanced by the number of titled records. -/
theorem processLines_spec (lines : List LineContent) (c N : Nat) :
    processLines lines c N =
      ((List.enumFrom c (titles lines)).map
        (fun p => Event.progress p.2 (p.1 + 1) N),
       c + (titles lines).length) := by
  induction lines generalizing c with
  | nil => rfl
  | cons l rest ih =>
    cases l with
    | blank => simpa [processLines, titles_cons_blank] using ih c
    | malformed => simpa [processLines, titles_cons_malformed] using ih c
    | json hasId hasTitle t =>
      cases hasTitle with
      | false =>
        simpa [processLines, titles_cons_json] using ih c
      | true =>
        simp [processLines, titles_cons_json, ih (c + 1),
          List.enumFrom_cons]
        omega

/-- Malformed lines are invisible to the line loop. -/
theorem processLines_skip_malformed (pre post : List LineContent)
    (c N : Nat) :
    processLines (pre ++ .malformed :: post) c N =
      processLines (pre ++ post) c N := by
  induction pre generalizing c with
  | nil => rfl
  | cons l rest ih =>
    cases l with
    | blank => simpa [processLines] using ih c
    | malformed => simpa [processLines] using ih c
    | json hasId hasTitle t =>
      cases hasTitle <;> simp [processLines, ih c, ih (c + 1)]

/-- Every event the line loop emits is a `progress` event with the given
total. -/
theorem processLines_events_progress (lines : List LineContent) (c N : Nat)
    (e : Event) (he : e ∈ (processLines lines c N).1) :
    ∃ t k, e = Event.progress t k N := by
  rw [processLines_spec] at he
  simp only [List.mem_map] at he
  obtain ⟨p, _, hp⟩ := he
  exact ⟨p.2, p.1 + 1, hp.symm⟩

/-- If no line is malformed, `countIdLines` succeeds and returns the
number of `id`-bearing JSON lines. -/
theorem countIdLines_ok (lines : List LineContent)
    (h : LineContent.malformed ∉ lines) :
    countIdLines lines = .ok (lines.countP hasIdLine) := by
  induction lines with
  | nil => rfl
  | cons l rest ih =>
    have hrest : LineContent.malformed ∉ rest := fun hm => h (List.mem_cons_of_mem _ hm)
    cases l with
    | blank => simpa [countIdLines, List.countP_cons, hasIdLine] using ih hrest
    | malformed => exact absurd (List.mem_cons_self _ _) h
    | json hasId hasTitle t =>
      cases hasId <;>
        simp [countIdLines, ih hrest, List.countP_cons, hasIdLine]

/-- If some line is malformed, `countIdLines` fails with the decode
error. -/
theorem countIdLines_err (lines : List LineContent)
    (h : LineContent.malformed ∈ lines) :
    countIdLines lines = .error jsonDecodeErrMsg := by
  induction lines with
  | nil => cases h
  | cons l rest ih =>
    cases l with
    | malformed => rfl
    | blank =>
      have hm : LineContent.malformed ∈ rest := by simpa using h
      simpa [countIdLines] using ih hm
    | json hasId hasTitle t =>
      have hm : LineContent.malformed ∈ rest := by simpa using h
      simp [countIdLines, ih hm]

theorem regGet_none_of_not_mem (sid : String) (reg : Registry)
    (h : regMem sid reg = false) : regGet sid reg = none := by
  simp only [regMem, List.any_eq_false] at h
  simp [regGet, List.find?_eq_none.mpr h]

theorem regMem_erase_self (sid : String) (reg : Registry) :
    regMem sid (regErase sid reg) = false := by
  simp only [regMem, regErase, List.any_eq_false]
  intro x hx
  have hne := (List.mem_filter.mp hx).2
  simpa using hne

theorem regErase_of_not_mem (sid : String) (reg : Registry)
    (h : regMem sid reg = false) : regErase sid reg = reg := by
  induction reg with
  | nil => rfl
  | cons e rest ih =>
    simp only [regMem, List.any_cons, Bool.or_eq_false_iff] at h
    have h1 : (e.1 == sid) = false := h.1
    have h2 : regMem sid rest = false := h.2
    have hne : ¬e.1 = sid := by simpa using h1
    have hcons : regErase sid (e :: rest) = e :: regErase sid rest := by
      simp [regErase, List.filter_cons, hne]
    rw [hcons, ih h2]

/-- Replace the lines the download process writes, leaving the rest of
the environment unchanged. -/
def withLines (env : Env) (ls : List LineContent) : Env :=
  { env with downloadRun := { env.downloadRun with stdoutLines := ls } }

/-- A concrete environment for a successful two-item run. -/
def envSuccess : Env :=
  { makedirsError := none
    enumRun := { timedOut := false, returncode := 0,
                 stdoutLines := [.json true false "", .json true false ""],
                 stderr := "" }
    handle := { exitAfterTerminate := some 1 }
    downloadRun := { stdoutLines := [.json false true "A", .blank,
                                     .json false true "B"],
                     returncode := 0, stderr := "" } }

/-- A concrete environment for a run that fails after one titled record. -/
def envToolFail : Env :=
  { makedirsError := none
    enumRun := { timedOut := false, returncode := 0,
                 stdoutLines := [.json true false "", .json true false ""],
                 stderr := "" }
    handle := { exitAfterTerminate := some 1 }
    downloadRun := { stdoutLines := [.json false true "A", .malformed],
                     returncode := 1, stderr := "boom" } }

/-- A concrete environment whose enumeration subprocess exits non-zero. -/
def envEnumFail : Env :=
  { makedirsError := none
    enumRun := { timedOut := false, returncode := 1,
                 stdoutLines := [], stderr := "no such playlist" }
    handle := { exitAfterTerminate := some 1 }
    downloadRun := { stdoutLines := [], returncode := 0, stderr := "" } }

/-- A sample playlist URL accepted by the validator. -/
def okUrl : String := "https://www.youtube.com/playlist?list=PL1"

/-! ## Claims -/

/-- C1: for a successful run — valid URL, directory created, enumeration
reporting `N` items, download stdout containing exactly `N` decodable
records with a `title` field, exit code `0` — the generator yields exactly
one `total` event with value `N`, then `N` `progress` events whose
`completed` field takes the strictly increasing values `1..N` (each with
`total = N`), then one `complete` event; and afterwards the registry
contains no entry for the session id. -/
theorem c1_successful_run_events (url format sid : String) (env : Env)
    (reg : Registry) (N : Nat)
    (hurl : validate_youtube_url url = true)
    (hmk : env.makedirsError = none)
    (henum : get_total_videos env.enumRun = .ok N)
    (hN : (titles env.downloadRun.stdoutLines).length = N)
    (hexit : env.downloadRun.returncode = 0) :
    (stream_playlist_download url format sid env reg).events =
      Event.total N ::
        ((titles env.downloadRun.stdoutLines).enum.map
          (fun p => Event.progress p.2 (p.1 + 1) N) ++ [Event.complete]) ∧
    regMem sid (stream_playlist_download url format sid env reg).reg = false := by
  constructor
  · simp [stream_playlist_download, streamBody, hurl, hmk, henum, hexit,
      processLines_spec, List.enum]
  · rcases h : streamBody url sid env reg with ⟨evs, reg1, started⟩
    simp [stream_playlist_download, h, regMem_erase_self]

/-- C1 witness: a concrete successful two-item run. -/
theorem c1_successful_run_events_witness :
    validate_youtube_url okUrl = true ∧
    (stream_playlist_download okUrl "mp4" "sid-a" envSuccess []).events =
      Event.total 2 ::
        ((titles envSuccess.downloadRun.stdoutLines).enum.map
          (fun p => Event.progress p.2 (p.1 + 1) 2) ++ [Event.complete]) := by
  refine ⟨by decide, ?_⟩
  exact (c1_successful_run_events okUrl "mp4" "sid-a" envSuccess [] 2
    (by decide) rfl rfl rfl rfl).1

/-- C2: when the download process emits `k < N` titled records and exits
non-zero, the event sequence is one `total` event, `k` `progress` events,
then exactly one `error` event whose payload contains the captured
standard-error text (`"Download failed: " ++ stderr`); and afterwards the
registry has no entry for the session id. -/
theorem c2_failed_run_events (url format sid : String) (env : Env)
    (reg : Registry) (N k : Nat)
    (hurl : validate_youtube_url url = true)
    (hmk : env.makedirsError = none)
    (henum : get_total_videos env.enumRun = .ok N)
    (hk : (titles env.downloadRun.stdoutLines).length = k)
    (hkN : k < N)
    (hexit : env.downloadRun.returncode ≠ 0) :
    (stream_playlist_download url format sid env reg).events =
      Event.total N ::
        ((titles env.downloadRun.stdoutLines).enum.map
          (fun p => Event.progress p.2 (p.1 + 1) N) ++
         [Event.error ("Download failed: " ++ env.downloadRun.stderr)]) ∧
    regMem sid (stream_playlist_download url format sid env reg).reg = false := by
  have hbeq : (env.downloadRun.returncode == 0) = false := by
    simpa using hexit
  constructor
  · simp [stream_playlist_download, streamBody, hurl, hmk, henum, hbeq,
      processLines_spec, List.enum]
  · rcases h : streamBody url sid env reg with ⟨evs, reg1, started⟩
    simp [stream_playlist_download, h, regMem_erase_self]

/-- C2 witness: one titled record out of two, then exit code 1. -/
theorem c2_failed_run_events_witness :
    (stream_playlist_download okUrl "mp4" "sid-b" envToolFail []).events =
      Event.total 2 ::
        ((titles envToolFail.downloadRun.stdoutLines).enum.map
          (fun p => Event.progress p.2 (p.1 + 1) 2) ++
         [Event.error ("Download failed: " ++ "boom")]) := by
  exact (c2_failed_run_events okUrl "mp4" "sid-b" envToolFail [] 2 1
    (by decide) rfl rfl rfl (by decide) (by decide)).1

/-- C3: on every termination path of the generator (invalid input, setup
failure, enumeration failure, tool failure, success), the `finally` block
performs the remove-if-present of the session id exactly once as the
terminating action, and the registry retains no entry for the finished
stream. -/
theorem c3_cleanup_on_every_path (url format sid : String) (env : Env)
    (reg : Registry) :
    regMem sid (stream_playlist_download url format sid env reg).reg = false ∧
    (stream_playlist_download url format sid env reg).removals = 1 := by
  rcases h : streamBody url sid env reg with ⟨evs, reg1, started⟩
  constructor
  · simp [stream_playlist_download, h, regMem_erase_self]
  · simp [stream_playlist_download, h]

/-- C5: a line that fails to decode is silently skipped: a run whose
download stdout has a malformed line anywhere behaves exactly like the
same run without that line — same events (so no `error` event from the
decode failure and no early termination), same registry, same cleanup. -/
theorem c5_malformed_line_skipped (url format sid : String) (env : Env)
    (reg : Registry) (pre post : List LineContent) :
    stream_playlist_download url format sid
        (withLines env (pre ++ .malformed :: post)) reg =
      stream_playlist_download url format sid (withLines env (pre ++ post)) reg := by
  cases hv : validate_youtube_url url with
  | false => simp [stream_playlist_download, streamBody, withLines, hv]
  | true =>
    cases hm : env.makedirsError with
    | some msg => simp [stream_playlist_download, streamBody, withLines, hv, hm]
    | none =>
      cases he : get_total_videos env.enumRun with
      | error e => simp [stream_playlist_download, streamBody, withLines, hv, hm, he]
      | ok total_videos =>
        simp [stream_playlist_download, streamBody, withLines, hv, hm, he,
          processLines_skip_malformed]

/-- C4: cancelling a session id present in the registry sends
`terminate()`, waits at most `GRACE_PERIOD = 5` units (escalating to
`kill()` exactly when the process does not exit within the grace period),
removes the id from the registry and returns the confirmation message;
cancelling an absent id returns the 404 not-found result and leaves the
registry unchanged. -/
theorem c4_cancel_behavior (sid : String) (reg : Registry) :
    (regMem sid reg = false →
      cancel_download sid reg =
        { outcome := .notFound 404 "Session not found", reg := reg,
          terminated := false, killed := false }) ∧
    (∀ p, regGet sid reg = some p →
      cancel_download sid reg =
        { outcome := .cancelled ("Download session " ++ sid ++ " cancelled"),
          reg := regErase sid reg, terminated := true,
          killed := waitTimesOut p } ∧
      regMem sid (cancel_download sid reg).reg = false) := by
  constructor
  · intro h
    simp [cancel_download, regGet_none_of_not_mem sid reg h]
  · intro p hp
    refine ⟨by simp [cancel_download, hp], ?_⟩
    simp [cancel_download, hp, regMem_erase_self]

/-- A one-entry registry used as concrete input. -/
def regSample : Registry := [("sid-live", { exitAfterTerminate := some 2 })]

/-- C4 witness: cancelling the live session and a missing one. -/
theorem c4_cancel_behavior_witness :
    cancel_download "sid-live" regSample =
      { outcome := .cancelled ("Download session " ++ "sid-live" ++ " cancelled"),
        reg := regErase "sid-live" regSample, terminated := true,
        killed := waitTimesOut { exitAfterTerminate := some 2 } } ∧
    cancel_download "missing" regSample =
      { outcome := .notFound 404 "Session not found", reg := regSample,
        terminated := false, killed := false } := by
  exact ⟨((c4_cancel_behavior "sid-live" regSample).2
            { exitAfterTerminate := some 2 } (by decide)).1,
         (c4_cancel_behavior "missing" regSample).1 (by decide)⟩

/-- C6: for a `playlist_url` the validator rejects, the generator yields
exactly one `error` event and terminates, the download process is never
started, and (the session id being fresh) the registry is left exactly as
it was — it gains no entry at any point. -/
theorem c6_invalid_url_rejected (url format sid : String) (env : Env)
    (reg : Registry)
    (hurl : validate_youtube_url url = false)
    (hfresh : regMem sid reg = false) :
    (stream_playlist_download url format sid env reg).events =
        [Event.error "Invalid YouTube URL"] ∧
    (stream_playlist_download url format sid env reg).reg = reg ∧
    (stream_playlist_download url format sid env reg).startedDownload = false := by
  refine ⟨?_, ?_, ?_⟩ <;>
    simp [stream_playlist_download, streamBody, hurl,
      regErase_of_not_mem sid reg hfresh]

/-- C6 witness: a non-YouTube URL. -/
theorem c6_invalid_url_rejected_witness :
    validate_youtube_url "http://example.com/watch" = false ∧
    (stream_playlist_download "http://example.com/watch" "mp4" "sid-f"
        envSuccess []).events = [Event.error "Invalid YouTube URL"] := by
  refine ⟨by decide, ?_⟩
  exact (c6_invalid_url_rejected "http://example.com/watch" "mp4" "sid-f"
    envSuccess [] (by decide) (by decide)).1

/-- C7: if the enumeration step fails (the enumerate-mode subprocess timed
out against its 30-unit bound or exited non-zero), the run yields one
`error` event and aborts: the download process is never started and (the
session id being fresh) the registry is exactly as before, so no handle
was inserted for this run. -/
theorem c7_enum_failure_aborts (url format sid : String) (env : Env)
    (reg : Registry)
    (hurl : validate_youtube_url url = true)
    (hmk : env.makedirsError = none)
    (hfail : env.enumRun.timedOut = true ∨ env.enumRun.returncode ≠ 0)
    (hfresh : regMem sid reg = false) :
    ∃ msg, get_total_videos env.enumRun = .error msg ∧
      (stream_playlist_download url format sid env reg).events =
        [Event.error ("Failed to get playlist info: " ++ msg)] ∧
      (stream_playlist_download url format sid env reg).startedDownload = false ∧
      (stream_playlist_download url format sid env reg).reg = reg := by
  have herr : ∃ msg, get_total_videos env.enumRun = .error msg := by
    cases hto : env.enumRun.timedOut with
    | true => exact ⟨timeoutErrMsg, by simp [get_total_videos, hto]⟩
    | false =>
      have hrc : env.enumRun.returncode ≠ 0 := by
        rcases hfail with h | h
        · rw [hto] at h; cases h
        · exact h
      have hrcb : (env.enumRun.returncode != 0) = true := by simpa using hrc
      exact ⟨"yt-dlp error: " ++ env.enumRun.stderr,
        by simp [get_total_videos, hto, hrcb]⟩
  obtain ⟨msg, hmsg⟩ := herr
  refine ⟨msg, hmsg, ?_, ?_, ?_⟩ <;>
    simp [stream_playlist_download, streamBody, hurl, hmk, hmsg,
      regErase_of_not_mem sid reg hfresh]

/-- C7 witness: enumeration exits non-zero. -/
theorem c7_enum_failure_aborts_witness :
    envEnumFail.enumRun.returncode ≠ 0 ∧
    ∃ msg, get_total_videos envEnumFail.enumRun = .error msg ∧
      (stream_playlist_download okUrl "mp4" "sid-g" envEnumFail []).events =
        [Event.error ("Failed to get playlist info: " ++ msg)] ∧
      (stream_playlist_download okUrl "mp4" "sid-g" envEnumFail []).startedDownload
        = false ∧
      (stream_playlist_download okUrl "mp4" "sid-g" envEnumFail []).reg = [] := by
  refine ⟨by decide, ?_⟩
  exact c7_enum_failure_aborts okUrl "mp4" "sid-g" envEnumFail []
    (by decide) rfl (Or.inr (by decide)) (by decide)

/-- C8 counterexample: `"mp3\n"` is a `format` value outside `{mp4, mp3}`,
yet the request is not rejected — Python's `$` also matches just before a
trailing newline, so `^(mp4|mp3)$` accepts it and the streaming response
(running the generator) is returned. -/
theorem c8_format_counterexample :
    ("mp3\n" : String) ≠ "mp4" ∧ ("mp3\n" : String) ≠ "mp3" ∧
    download_endpoint okUrl "mp3\n" "sid-c" = .streaming "sid-c" := by
  exact ⟨by decide, by decide, by decide⟩

/-- C8 (amended): for every `format` value the pattern `^(mp4|mp3)$`
rejects — that is, every value outside `{mp4, mp3, "mp4\n", "mp3\n"}`,
Python's `$` also matching just before one trailing newline — the start
request is rejected with a validation error before any event stream
begins, so the streaming generator is never run. -/
theorem c8_format_rejected (playlist_url format sid : String)
    (h1 : format ≠ "mp4") (h2 : format ≠ "mp3")
    (h3 : format ≠ "mp4\n") (h4 : format ≠ "mp3\n") :
    download_endpoint playlist_url format sid = .validationError := by
  have hp : formatPattern format = false := by
    simp [formatPattern, h1, h2, h3, h4]
  by_cases hl : playlist_url.length < 10
  · simp [download_endpoint, hl]
  · simp [download_endpoint, hl, hp]

/-- C8 witness: the format `avi` is rejected. -/
theorem c8_format_rejected_witness :
    ("avi" : String) ≠ "mp4" ∧
    download_endpoint okUrl "avi" "sid-d" = .validationError := by
  exact ⟨by decide, c8_format_rejected okUrl "avi" "sid-d"
    (by decide) (by decide) (by decide) (by decide)⟩

/-- C9: during enumeration (run neither timed out nor failed), one
non-blank undecodable line makes the whole enumeration raise — the run
then ends with the `Failed to get playlist info` error event and the
download is never attempted — unlike the download-stream translator, for
which a malformed line is invisible; and with no malformed line the count
is exactly the number of non-blank lines whose JSON contains `id`. -/
theorem c9_enum_strict_vs_translator (r : EnumRun)
    (h0 : r.timedOut = false) (h1 : r.returncode = 0) :
    (LineContent.malformed ∈ r.stdoutLines →
      get_total_videos r = .error jsonDecodeErrMsg ∧
      ∀ url format sid (env : Env) (reg : Registry),
        validate_youtube_url url = true → env.makedirsError = none →
        env.enumRun = r →
        (stream_playlist_download url format sid env reg).events =
          [Event.error ("Failed to get playlist info: " ++ jsonDecodeErrMsg)] ∧
        (stream_playlist_download url format sid env reg).startedDownload
          = false) ∧
    (LineContent.malformed ∉ r.stdoutLines →
      get_total_videos r = .ok (r.stdoutLines.countP hasIdLine)) ∧
    (∀ pre post c N,
      processLines (pre ++ LineContent.malformed :: post) c N =
        processLines (pre ++ post) c N) := by
  refine ⟨?_, ?_, processLines_skip_malformed⟩
  · intro hm
    have hga : get_total_videos r = .error jsonDecodeErrMsg := by
      simp [get_total_videos, h0, h1, countIdLines_err _ hm]
    refine ⟨hga, ?_⟩
    intro url format sid env reg hurl hmk henv
    have hga2 : get_total_videos env.enumRun = .error jsonDecodeErrMsg := by
      rw [henv]; exact hga
    constructor <;>
      simp [stream_playlist_download, streamBody, hurl, hmk, hga2]
  · intro hm
    simp [get_total_videos, h0, h1, countIdLines_ok _ hm]

/-- An enumeration run with a malformed output line. -/
def enumMalformed : EnumRun :=
  { timedOut := false, returncode := 0,
    stdoutLines := [.json true false "", .malformed], stderr := "" }

/-- An enumeration run with clean output. -/
def enumClean : EnumRun :=
  { timedOut := false, returncode := 0,
    stdoutLines := [.json true false "", .blank, .json false false ""],
    stderr := "" }

/-- C9 witness: concrete malformed and clean enumeration runs. -/
theorem c9_enum_strict_vs_translator_witness :
    get_total_videos enumMalformed = .error jsonDecodeErrMsg ∧
    get_total_videos enumClean = .ok 1 ∧
    processLines ([] ++ LineContent.malformed :: []) 0 3 =
      processLines ([] ++ []) 0 3 := by
  refine ⟨?_, ?_, ?_⟩
  · exact ((c9_enum_strict_vs_translator enumMalformed rfl rfl).1
      (by decide)).1
  · exact (c9_enum_strict_vs_translator enumClean rfl rfl).2.1 (by decide)
  · exact (c9_enum_strict_vs_translator enumClean rfl rfl).2.2 [] [] 0 3

/-- C10: in any run that reaches the download loop, the sequence of
`progress` events is exactly one event per decoded record carrying a
`title`, in order, with `completed` equal to the event's ordinal (the
`k`-th progress event has `completed = k`) and `total` equal to the count
returned by enumeration; no other line changes the count or emits a
progress event. -/
theorem c10_progress_fields (url format sid : String) (env : Env)
    (reg : Registry) (N : Nat)
    (hurl : validate_youtube_url url = true)
    (hmk : env.makedirsError = none)
    (henum : get_total_videos env.enumRun = .ok N) :
    (stream_playlist_download url format sid env reg).events.filter isProgress =
      (titles env.downloadRun.stdoutLines).enum.map
        (fun p => Event.progress p.2 (p.1 + 1) N) := by
  have hfilter : ∀ (l : List (Nat × String)),
      (l.map (fun p => Event.progress p.2 (p.1 + 1) N)).filter isProgress =
        l.map (fun p => Event.progress p.2 (p.1 + 1) N) := by
    intro l
    rw [List.filter_eq_self]
    intro a ha
    obtain ⟨p, _, hp⟩ := List.mem_map.mp ha
    rw [← hp]; rfl
  cases hrc : env.downloadRun.returncode == 0 with
  | true =>
    simp [stream_playlist_download, streamBody, hurl, hmk, henum, hrc,
      processLines_spec, List.enum, List.filter_append, hfilter, isProgress]
  | false =>
    simp [stream_playlist_download, streamBody, hurl, hmk, henum, hrc,
      processLines_spec, List.enum, List.filter_append, hfilter, isProgress]

/-- C10 witness: the successful two-item run. -/
theorem c10_progress_fields_witness :
    (stream_playlist_download okUrl "mp4" "sid-e" envSuccess
        []).events.filter isProgress =
      (titles envSuccess.downloadRun.stdoutLines).enum.map
        (fun p => Event.progress p.2 (p.1 + 1) 2) :=
  c10_progress_fields okUrl "mp4" "sid-e" envSuccess [] 2 (by decide) rfl rfl

end PlaylistBackend
